import Mathlib

/-!
Shallow embedding of the oscli audio playback core (`src/audio.rs`):
sample-format normalization, the decode worker's interleaving, envelope
(peak) extraction, the output callback's ring-buffer pops, and the
`Media` transport state machine (play/pause/seek/reset).
-/

namespace Oscli

/-- The ten symphonia `AudioBufferRef` sample formats handled by the
decode worker in `Media::start_decoding`. -/
inductive SampleFormat
  | u8 | u16 | u24 | u32 | s8 | s16 | s24 | s32 | f32 | f64
deriving DecidableEq, Repr

/-- Per-sample normalization performed by the decode worker
(`Media::start_decoding`, the `match buf` arms). The raw sample value is
carried as a rational: for integer formats it is the integer sample
value, for float formats the float's value. -/
def normalize : SampleFormat → ℚ → ℚ
  | .u8, s => (s - 128) / 128
  | .u16, s => (s - 32768) / 32768
  | .u24, s => (s - 8388608) / 8388608
  | .u32, s => (s - 2147483648) / 2147483648
  | .s8, s => s / 128
  | .s16, s => s / 32768
  | .s24, s => s / 8388608
  | .s32, s => s / 2147483648
  | .f32, s => s
  | .f64, s => s

/-- A decoded audio buffer: format, channel count, frame count, and the
per-channel sample data (`chans[c][f]` is frame `f` of channel `c`). -/
structure AudioBuffer where
  fmt : SampleFormat
  numChannels : Nat
  numFrames : Nat
  chans : List (List ℚ)
deriving DecidableEq, Repr

/-- `buffer.chan(c)[f]` access. -/
def chanSample (b : AudioBuffer) (c f : Nat) : ℚ :=
  (b.chans.getD c []).getD f 0

/-- The decode worker's conversion of one decoded buffer to canonical
interleaved samples: outer loop over frames, inner loop over channels
(`for frame_idx in 0..num_frames { for chan_idx in 0..num_channels`). -/
def decodeSamples (b : AudioBuffer) : List ℚ :=
  (List.range b.numFrames).flatMap (fun f =>
    (List.range b.numChannels).map (fun c => normalize b.fmt (chanSample b c f)))

end Oscli

namespace Oscli

/-- One visualization datum of `Media::compute_peaks`. -/
structure Peak where
  min_left : ℚ
  max_left : ℚ
  min_right : ℚ
  max_right : ℚ
deriving DecidableEq, Repr

/-- `f32::MAX` as an exact rational (2^128 - 2^104). -/
def f32MAX : ℚ := 340282346638528859811704183484516925440

/-- `f32::MIN`. -/
def f32MIN : ℚ := -f32MAX

/-- Which buffer formats `Media::compute_peaks` handles; every other
format hits the `_ => continue` arm. -/
def peakSupported : SampleFormat → Bool
  | .f32 | .s16 | .s32 => true
  | _ => false

/-- The per-sample normalization used inside `compute_peaks` for its
three supported formats. -/
def peakNorm : SampleFormat → ℚ → ℚ
  | .s16, s => s / 32768
  | .s32, s => s / 2147483648
  | _, s => s

/-- One iteration of the min/max accumulation loop (`for j in start..end`). -/
def peakStep (left right : List ℚ) (p : Peak) (j : Nat) : Peak :=
  { min_left := min p.min_left (left.getD j 0)
    max_left := max p.max_left (left.getD j 0)
    min_right := min p.min_right (right.getD j 0)
    max_right := max p.max_right (right.getD j 0) }

/-- Reduce block `[s, e)` to a `Peak`, starting from the
`f32::MAX`/`f32::MIN` sentinels as in the source. -/
def blockPeak (left right : List ℚ) (s e : Nat) : Peak :=
  (List.range' s (e - s)).foldl (peakStep left right) ⟨f32MAX, f32MIN, f32MAX, f32MIN⟩

/-- `compute_peaks`' handling of one decoded buffer: extract left/right
channels (duplicating channel 0 when mono), then emit one `Peak` per
complete 32-sample block of this packet (`for i in 0..(len / 32)`);
trailing samples beyond the last complete block are not carried over. -/
def peaksOfBuffer (b : AudioBuffer) : List Peak :=
  let left := (b.chans.getD 0 []).map (peakNorm b.fmt)
  let right := (if b.numChannels > 1 then b.chans.getD 1 [] else b.chans.getD 0 []).map (peakNorm b.fmt)
  (List.range (left.length / 32)).map (fun i =>
    blockPeak left right (i * 32) (min ((i + 1) * 32) left.length))

/-- Outcome of one `reader.next_packet()` iteration in `compute_peaks`:
either the packet is skipped (wrong track id, recoverable decode error)
or it decodes to a buffer. -/
inductive PacketEvent
  | skipped
  | decoded (b : AudioBuffer)
deriving DecidableEq, Repr

/-- The envelope `Media::compute_peaks` builds from a packet sequence:
buffers in the three supported formats contribute their per-packet
blocks; everything else contributes nothing. -/
def computePeaks (ps : List PacketEvent) : List Peak :=
  ps.flatMap fun p =>
    match p with
    | .skipped => []
    | .decoded b => if peakSupported b.fmt then peaksOfBuffer b else []

/-- Interleaved-sample duration of a packet sequence (frame count times
channel count, as `duration_samples` is computed in `try_from_path`). -/
def interleavedDuration (ps : List PacketEvent) : Nat :=
  (ps.map fun p =>
    match p with
    | .skipped => 0
    | .decoded b => b.numChannels * (b.chans.getD 0 []).length).sum

end Oscli

namespace Oscli

/-- Errors returned by the `Media` methods (the `anyhow::bail!` /
`ok_or` sites in `src/audio.rs`). -/
inductive MErr
  | noStream
  | consumerTaken
  | producerTaken
  | readerTaken
  | decoderTaken
  | seekError
deriving DecidableEq, Repr

/-- A cpal output stream as built by `Media::into_stream`: it owns the
consumer end of the ring-buffer generation it was built from, and is
either running or paused. -/
structure StreamSt where
  consumerGen : Nat
  running : Bool
deriving DecidableEq, Repr

/-- A decode-worker thread as spawned by `Media::start_decoding`: it
owns the producer end of one ring-buffer generation; `finished` records
whether the thread's loop has exited (the `JoinHandle` stays in
`decoding_thread` either way). -/
structure WorkerSt where
  producerGen : Nat
  finished : Bool
deriving DecidableEq, Repr

/-- The `Media` struct's mutable playback state. Ring buffers are given
generation numbers: `bufs.get? g` is the content (oldest first) of the
ring buffer created `g`-th; `producerGen` / `consumerGen` are the
`producer` / `consumer` fields (`none` = taken). `readerAt = some t`
means the reader is present and positioned at `t` seconds. -/
structure MediaState where
  position : Nat
  isPlaying : Bool
  isDone : Bool
  readerAt : Option ℚ
  decoderPresent : Bool
  producerGen : Option Nat
  consumerGen : Option Nat
  stream : Option StreamSt
  worker : Option WorkerSt
  bufs : List (List ℚ)
  peaks : List Peak
  sampleRate : Nat
  channels : Nat
  durationSamples : Nat
deriving DecidableEq, Repr

/-- `AtomicU32` modulus. -/
def U32MOD : Nat := 4294967296

namespace Media

/-- A freshly loaded `Media` (`try_from_path`): clock 0, flags false,
reader/decoder present at time 0, ring buffer generation 0 split into
producer and consumer, no stream, no worker. -/
def load (peaks : List Peak) (sampleRate channels durationSamples : Nat) : MediaState :=
  { position := 0
    isPlaying := false
    isDone := false
    readerAt := some 0
    decoderPresent := true
    producerGen := some 0
    consumerGen := some 0
    stream := none
    worker := none
    bufs := [[]]
    peaks := peaks
    sampleRate := sampleRate
    channels := channels
    durationSamples := durationSamples }

/-- `Media::into_stream`: take the consumer (error if already taken) and
build an output stream holding it; the stream is not yet running. -/
def intoStream (s : MediaState) : MediaState × Option MErr :=
  match s.consumerGen with
  | none => (s, some .consumerTaken)
  | some g => ({ s with consumerGen := none, stream := some ⟨g, false⟩ }, none)

/-- `Media::start_decoding`: take reader, decoder and producer (in that
order, each leaving `None` behind) and spawn the decode thread. -/
def startDecoding (s : MediaState) : MediaState × Option MErr :=
  match s.readerAt with
  | none => (s, some .readerTaken)
  | some _ =>
    let s1 := { s with readerAt := none }
    if s1.decoderPresent then
      let s2 := { s1 with decoderPresent := false }
      match s2.producerGen with
      | none => (s2, some .producerTaken)
      | some g => ({ s2 with producerGen := none, worker := some ⟨g, false⟩ }, none)
    else (s1, some .decoderTaken)

/-- `stream.play()` at the end of `Media::play`. -/
def streamPlay (s : MediaState) : MediaState × Option MErr :=
  match s.stream with
  | none => (s, some .noStream)
  | some st => ({ s with stream := some ⟨st.consumerGen, true⟩ }, none)

/-- `Media::play`: if no stream exists, build one, set the playing flag,
start decoding; otherwise set the flag and start decoding only when
`decoding_thread` is `None`; finally `stream.play()`. -/
def play (s : MediaState) : MediaState × Option MErr :=
  if s.stream.isSome then
    let s1 := { s with isPlaying := true }
    let r := if s1.worker.isNone then startDecoding s1 else (s1, none)
    match r with
    | (s2, some e) => (s2, some e)
    | (s2, none) => streamPlay s2
  else
    match intoStream s with
    | (s1, some e) => (s1, some e)
    | (s1, none) =>
      let s2 := { s1 with isPlaying := true }
      match startDecoding s2 with
      | (s3, some e) => (s3, some e)
      | (s3, none) => streamPlay s3

/-- `Media::pause`: store `false` into the playing flag, then pause the
stream (bailing with `No stream` when absent — the flag store has
already happened). -/
def pause (s : MediaState) : MediaState × Option MErr :=
  let s1 := { s with isPlaying := false }
  match s1.stream with
  | none => (s1, some .noStream)
  | some st => ({ s1 with stream := some ⟨st.consumerGen, false⟩ }, none)

/-- The seek target as computed on line 447 of `audio.rs`:
`(time_secs * sample_rate as f64) as u64 * channels as u64`. The
`as u64` cast truncates (saturating at 0 for negative input), hence
`Int.toNat ∘ Int.floor`. -/
def seekTarget (t : ℚ) (sampleRate channels : Nat) : Nat :=
  (Int.toNat ⌊t * (sampleRate : ℚ)⌋) * channels

/-- `Media::seek`: pause; clear `is_done`; join and drop the decode
thread handle; reopen the file (fresh reader and decoder, assumed to
succeed); `reader.seek` (fails when `seekOk` is false); store the
truncated target into `position` (an `as u32` cast, hence mod 2^32);
drop the old stream; split a fresh ring buffer; `play()`. -/
def seek (t : ℚ) (seekOk : Bool) (s : MediaState) : MediaState × Option MErr :=
  match pause s with
  | (s1, some e) => (s1, some e)
  | (s1, none) =>
    let s2 := { s1 with isDone := false, worker := none }
    let s3 := { s2 with readerAt := some 0, decoderPresent := true }
    if seekOk then
      let s4 := { s3 with readerAt := some t }
      let s5 := { s4 with position := seekTarget t s4.sampleRate s4.channels % U32MOD }
      let g := s5.bufs.length
      let s6 := { s5 with stream := none, bufs := s5.bufs ++ [[]],
                          producerGen := some g, consumerGen := some g }
      play s6
    else (s3, some .seekError)

/-- `Media::reset`: pause; zero the clock; clear `is_done`; join and
drop the decode thread; fresh reader and decoder at time 0; split a
fresh ring buffer. The `stream` field is left untouched. -/
def reset (s : MediaState) : MediaState × Option MErr :=
  match pause s with
  | (s1, some e) => (s1, some e)
  | (s1, none) =>
    let s2 := { s1 with position := 0, isDone := false, worker := none }
    let s3 := { s2 with readerAt := some 0, decoderPresent := true }
    let g := s3.bufs.length
    ({ s3 with bufs := s3.bufs ++ [[]], producerGen := some g, consumerGen := some g }, none)

/-- The decode thread observing `is_playing == false` and exiting its
loop: the thread finishes but its `JoinHandle` remains in
`decoding_thread`. Only applicable while not playing. -/
def workerExit (s : MediaState) : MediaState :=
  if s.isPlaying then s
  else
    match s.worker with
    | none => s
    | some w => { s with worker := some ⟨w.producerGen, true⟩ }

/-- One iteration sequence of the output callback's fill loop over a
destination buffer of `n` slots: returns the written buffer, the
remaining queue, and `samples_read` (the number of pops that returned
data). An empty queue yields silence (`0`) and no count. -/
def fillLoop : List ℚ → Nat → List ℚ × List ℚ × Nat
  | q, 0 => ([], q, 0)
  | [], n + 1 =>
    let r := fillLoop [] n
    (0 :: r.1, r.2.1, r.2.2)
  | v :: rest, n + 1 =>
    let r := fillLoop rest n
    (v :: r.1, r.2.1, r.2.2 + 1)

/-- One invocation of the output callback built in `Media::into_stream`
with a destination buffer of `n` slots: pop from the ring buffer the
stream owns, then `position.fetch_add(samples_read)` (wrapping u32
addition). Runs only while the stream exists and is running. -/
def callbackStep (s : MediaState) (n : Nat) : MediaState :=
  match s.stream with
  | none => s
  | some st =>
    if st.running then
      let q := s.bufs.getD st.consumerGen []
      let r := fillLoop q n
      { s with bufs := s.bufs.set st.consumerGen r.2.1,
               position := (s.position + r.2.2) % U32MOD }
    else s

/-- The decode worker pushing one sample into its ring buffer
(`producer.try_push`): succeeds only when the buffer is not full
(capacity `sample_rate * channels * 2`). Never touches `position`. -/
def workerPush (s : MediaState) (v : ℚ) : MediaState :=
  match s.worker with
  | none => s
  | some w =>
    let q := s.bufs.getD w.producerGen []
    if q.length < s.sampleRate * s.channels * 2 then
      { s with bufs := s.bufs.set w.producerGen (q ++ [v]) }
    else s

end Media

end Oscli

namespace Oscli

/-- Whether a packet event contributes to the envelope in
`compute_peaks` (decoded and in one of the three handled formats). -/
def peakPacketKept : PacketEvent → Bool
  | .skipped => false
  | .decoded b => peakSupported b.fmt

/-- Per-packet count of complete 32-sample blocks contributed to the
envelope. -/
def packetBlockCount : PacketEvent → Nat
  | .skipped => 0
  | .decoded b => if peakSupported b.fmt then (b.chans.getD 0 []).length / 32 else 0

/-- A freshly loaded two-channel 44100 Hz 2-second track. -/
def exLoaded : MediaState := Media.load [] 44100 2 176400

/-- The same track after `play()`. -/
def exPlaying : MediaState := (Media.play exLoaded).1

/-- A playing state whose 32-bit Playback Clock is one below wraparound
with one sample queued. -/
def exWrap : MediaState :=
  { position := 4294967295
    isPlaying := true
    isDone := false
    readerAt := none
    decoderPresent := false
    producerGen := none
    consumerGen := none
    stream := some ⟨0, true⟩
    worker := some ⟨0, false⟩
    bufs := [[0]]
    peaks := []
    sampleRate := 44100
    channels := 2
    durationSamples := 176400 }

/-- A packet stream consisting of one 48-frame mono S16 packet. -/
def exPackets : List PacketEvent := [.decoded ⟨.s16, 1, 48, [List.replicate 48 0]⟩]

/-- The example track after `play()`, then `pause()`, then the decode
thread observing the cleared flag and exiting its loop. -/
def exPausedExited : MediaState := Media.workerExit (Media.pause exPlaying).1

/-- The Playback Clock value the spec's words claim after `seek(t)`:
`round(time × sample_rate) × channel_count`. This follows the spec
sentence, for comparison against `Media.seekTarget` taken from the
source. -/
def specSeekTarget (t : ℚ) (sampleRate channels : Nat) : Nat :=
  Int.toNat (round (t * (sampleRate : ℚ))) * channels

end Oscli

namespace Oscli

/-- Indexing a `flatMap` whose pieces all have length `C`. -/
theorem flatMap_get_const_len {α β : Type} (g : β → List α) (C : Nat)
    (l : List β) : ∀ f c : Nat, (∀ b ∈ l, (g b).length = C) → f < l.length → c < C →
      (l.flatMap g).get? (f * C + c) = (l.get? f).bind fun b => (g b).get? c := by
  induction l with
  | nil => intro f c _ hf _; simp at hf
  | cons b bs ih =>
    intro f c hl hf hc
    have hb : (g b).length = C := hl b (List.mem_cons_self b bs)
    have hflat : (b :: bs).flatMap g = g b ++ bs.flatMap g := rfl
    cases f with
    | zero =>
      rw [hflat, Nat.zero_mul, Nat.zero_add, List.get?_append (by omega)]
      rfl
    | succ f' =>
      have hidx : (f' + 1) * C + c = C + (f' * C + c) := by rw [Nat.succ_mul]; omega
      rw [hflat, hidx, List.get?_append_right (by omega)]
      have h2 : C + (f' * C + c) - (g b).length = f' * C + c := by omega
      rw [h2]
      exact ih f' c (fun x hx => hl x (List.mem_cons_of_mem b hx)) (by simpa using hf) hc

/-- Length of a `flatMap` whose pieces all have length `C`. -/
theorem flatMap_length_const_len {α β : Type} (g : β → List α) (C : Nat)
    (l : List β) (hl : ∀ b ∈ l, (g b).length = C) :
    (l.flatMap g).length = l.length * C := by
  induction l with
  | nil => simp
  | cons b bs ih =>
    have hb : (g b).length = C := hl b (List.mem_cons_self b bs)
    have hrest := ih (fun x hx => hl x (List.mem_cons_of_mem b hx))
    have hflat : (b :: bs).flatMap g = g b ++ bs.flatMap g := rfl
    rw [hflat, List.length_append, hb, hrest, List.length_cons, Nat.succ_mul]
    omega

/-- A quotient `s / d` of values with `|s| ≤ d` lies in `[-1, 1]`. -/
theorem unitRange (s d : ℚ) (hd : 0 < d) (h1 : -d ≤ s) (h2 : s ≤ d) :
    -1 ≤ s / d ∧ s / d ≤ 1 := by
  constructor
  · rw [le_div_iff₀ hd]; linarith
  · rw [div_le_one hd]; linarith

/-- The decode worker's conversion has length frames times channels. -/
theorem decodeSamples_length (b : AudioBuffer) :
    (decodeSamples b).length = b.numFrames * b.numChannels := by
  rw [decodeSamples,
    flatMap_length_const_len _ b.numChannels _ (by intro x _; simp)]
  simp

/-- The full characterization of the output callback's fill loop. -/
theorem fillLoop_spec (q : List ℚ) (n : Nat) :
    Media.fillLoop q n =
      (q.take n ++ List.replicate (n - q.length) 0, q.drop n, min q.length n) := by
  induction n generalizing q with
  | zero => simp [Media.fillLoop]
  | succ n ih =>
    cases q with
    | nil => simp [Media.fillLoop, ih, List.replicate_succ]
    | cons v rest =>
      simp [Media.fillLoop, ih, Nat.succ_min_succ, Nat.succ_sub_succ]

/-- Per-buffer peak count of `compute_peaks`. -/
theorem peaksOfBuffer_length (b : AudioBuffer) :
    (peaksOfBuffer b).length = (b.chans.getD 0 []).length / 32 := by
  simp [peaksOfBuffer]

/-- Unfolding `computePeaks` over a decoded packet. -/
theorem computePeaks_cons_decoded (b : AudioBuffer) (ps : List PacketEvent) :
    computePeaks (.decoded b :: ps)
      = (if peakSupported b.fmt then peaksOfBuffer b else []) ++ computePeaks ps := rfl

/-- Unfolding `computePeaks` over a skipped packet. -/
theorem computePeaks_cons_skipped (ps : List PacketEvent) :
    computePeaks (.skipped :: ps) = computePeaks ps := rfl

/-- C4: on every output-callback invocation each destination slot is a
non-blocking pop (the popped sample on success, silence on empty), and
the Playback Clock is advanced by exactly the number of pops that
returned data — `min (queue length) (buffer length)` — never by the
buffer length when the queue is shorter, and never by a worker push. -/
theorem C4_callback_consumed_count :
    (∀ (q : List ℚ) (n : Nat),
        Media.fillLoop q n =
          (q.take n ++ List.replicate (n - q.length) 0, q.drop n, min q.length n)) ∧
    (∀ (s : MediaState) (st : StreamSt) (n : Nat),
        s.stream = some st → st.running = true →
        (Media.callbackStep s n).position
          = (s.position + min (s.bufs.getD st.consumerGen []).length n) % U32MOD) ∧
    (∀ (s : MediaState) (v : ℚ), (Media.workerPush s v).position = s.position) := by
  refine ⟨fillLoop_spec, ?_, ?_⟩
  · intro s st n hs hr
    simp [Media.callbackStep, hs, hr, fillLoop_spec]
  · intro s v
    rw [Media.workerPush]
    rcases s.worker with _ | w
    · rfl
    · simp only
      split <;> rfl

/-- C4 witness: the callback theorem applied to the freshly played
example state with a 3-slot destination buffer. -/
theorem C4_callback_consumed_count_witness :
    (Media.callbackStep exPlaying 3).position
      = (exPlaying.position + min (exPlaying.bufs.getD 0 []).length 3) % U32MOD :=
  C4_callback_consumed_count.2.1 exPlaying ⟨0, true⟩ 3 rfl rfl

/-- C9: the decode worker interleaves frame-major/channel-minor, and
each integer-format normalization maps every representable value into
`[-1, 1]`. -/
theorem C9_decode_normalization :
    (∀ (b : AudioBuffer) (f c : Nat), f < b.numFrames → c < b.numChannels →
        (decodeSamples b).get? (f * b.numChannels + c)
          = some (normalize b.fmt (chanSample b c f))) ∧
    (∀ b : AudioBuffer, (decodeSamples b).length = b.numFrames * b.numChannels) ∧
    (∀ s : ℚ, 0 ≤ s → s ≤ 255 → -1 ≤ normalize .u8 s ∧ normalize .u8 s ≤ 1) ∧
    (∀ s : ℚ, 0 ≤ s → s ≤ 65535 → -1 ≤ normalize .u16 s ∧ normalize .u16 s ≤ 1) ∧
    (∀ s : ℚ, 0 ≤ s → s ≤ 16777215 → -1 ≤ normalize .u24 s ∧ normalize .u24 s ≤ 1) ∧
    (∀ s : ℚ, 0 ≤ s → s ≤ 4294967295 → -1 ≤ normalize .u32 s ∧ normalize .u32 s ≤ 1) ∧
    (∀ s : ℚ, -128 ≤ s → s ≤ 127 → -1 ≤ normalize .s8 s ∧ normalize .s8 s ≤ 1) ∧
    (∀ s : ℚ, -32768 ≤ s → s ≤ 32767 → -1 ≤ normalize .s16 s ∧ normalize .s16 s ≤ 1) ∧
    (∀ s : ℚ, -8388608 ≤ s → s ≤ 8388607 → -1 ≤ normalize .s24 s ∧ normalize .s24 s ≤ 1) ∧
    (∀ s : ℚ, -2147483648 ≤ s → s ≤ 2147483647 →
        -1 ≤ normalize .s32 s ∧ normalize .s32 s ≤ 1) := by
  refine ⟨?_, decodeSamples_length, ?_, ?_, ?_, ?_, ?_, ?_, ?_, ?_⟩
  · intro b f c hf hc
    have h1 := flatMap_get_const_len
      (fun f => (List.range b.numChannels).map (fun c => normalize b.fmt (chanSample b c f)))
      b.numChannels (List.range b.numFrames) f c
      (by intro x _; simp) (by simpa using hf) hc
    rw [decodeSamples, h1, List.get?_range hf]
    simp only [Option.some_bind, List.get?_map, List.get?_range hc, Option.map_some']
  · intro s h1 h2
    simpa [normalize] using unitRange (s - 128) 128 (by norm_num) (by linarith) (by linarith)
  · intro s h1 h2
    simpa [normalize] using unitRange (s - 32768) 32768 (by norm_num) (by linarith) (by linarith)
  · intro s h1 h2
    simpa [normalize] using
      unitRange (s - 8388608) 8388608 (by norm_num) (by linarith) (by linarith)
  · intro s h1 h2
    simpa [normalize] using
      unitRange (s - 2147483648) 2147483648 (by norm_num) (by linarith) (by linarith)
  · intro s h1 h2
    simpa [normalize] using unitRange s 128 (by norm_num) (by linarith) (by linarith)
  · intro s h1 h2
    simpa [normalize] using unitRange s 32768 (by norm_num) (by linarith) (by linarith)
  · intro s h1 h2
    simpa [normalize] using unitRange s 8388608 (by norm_num) (by linarith) (by linarith)
  · intro s h1 h2
    simpa [normalize] using unitRange s 2147483648 (by norm_num) (by linarith) (by linarith)

/-- C9 witness: interleaving and the u8 range property at concrete
inputs (a 2-channel 1-frame u8 buffer; the sample value 37). -/
theorem C9_decode_normalization_witness :
    (decodeSamples ⟨.u8, 2, 1, [[0], [255]]⟩).get? (0 * 2 + 1)
      = some (normalize .u8 (chanSample ⟨.u8, 2, 1, [[0], [255]]⟩ 1 0)) ∧
    (-1 ≤ normalize .u8 37 ∧ normalize .u8 37 ≤ 1) :=
  ⟨C9_decode_normalization.1 ⟨.u8, 2, 1, [[0], [255]]⟩ 0 1 (by decide) (by decide),
   C9_decode_normalization.2.2.1 37 (by decide) (by decide)⟩

/-- C10: envelope extraction keeps only F32/S16/S32 packets (all other
formats hit the catch-all `continue` and contribute no Peaks), while the
playback decode path produces samples for buffers of every format. -/
theorem C10_peak_format_skip :
    (∀ fmt : SampleFormat, peakSupported fmt = true ↔
        (fmt = .f32 ∨ fmt = .s16 ∨ fmt = .s32)) ∧
    (∀ ps : List PacketEvent, computePeaks ps = computePeaks (ps.filter peakPacketKept)) ∧
    (∀ b : AudioBuffer, peakSupported b.fmt = false → computePeaks [.decoded b] = []) ∧
    (∀ b : AudioBuffer, (decodeSamples b).length = b.numFrames * b.numChannels) := by
  refine ⟨?_, ?_, ?_, decodeSamples_length⟩
  · intro fmt; cases fmt <;> simp [peakSupported]
  · intro ps
    induction ps with
    | nil => rfl
    | cons p ps ih =>
      cases p with
      | skipped =>
        simpa [computePeaks_cons_skipped, List.filter_cons, peakPacketKept] using ih
      | decoded b =>
        rcases hb : peakSupported b.fmt with _ | _ <;>
          simp [computePeaks_cons_decoded, List.filter_cons, peakPacketKept, hb, ih]
  · intro b hb
    simp [computePeaks_cons_decoded, computePeaks, hb]

/-- C10 witness: a U16 buffer contributes no peaks. -/
theorem C10_peak_format_skip_witness :
    computePeaks [.decoded ⟨.u16, 1, 4, [[1, 2, 3, 4]]⟩] = [] :=
  C10_peak_format_skip.2.2.1 ⟨.u16, 1, 4, [[1, 2, 3, 4]]⟩ (by decide)

/-- C3 counterexample: one mono S16 packet of 48 frames yields a single
Peak, not `ceil(48 / 32) = 2` — the 16 samples past the last complete
block are dropped at the packet boundary. -/
theorem C3_peak_count_counterexample :
    (computePeaks exPackets).length ≠ (interleavedDuration exPackets + 32 - 1) / 32 := by
  decide

/-- C3 amended: the envelope length is the sum, over decoded packets in
a supported format, of the number of complete 32-sample per-channel
blocks in that packet; the trailing partial block of every packet is
dropped rather than carried into the next packet. -/
theorem C3_peak_count_amended (ps : List PacketEvent) :
    (computePeaks ps).length = (ps.map packetBlockCount).sum := by
  induction ps with
  | nil => rfl
  | cons p ps ih =>
    cases p with
    | skipped => simpa [computePeaks_cons_skipped, packetBlockCount] using ih
    | decoded b =>
      rcases hb : peakSupported b.fmt with _ | _ <;>
        simp [computePeaks_cons_decoded, hb, packetBlockCount, peaksOfBuffer_length, ih]

/-- `into_stream` never touches the Playback Clock. -/
theorem intoStream_position (s : MediaState) :
    (Media.intoStream s).1.position = s.position := by
  rcases h : s.consumerGen with _ | g <;> simp [Media.intoStream, h]

/-- `start_decoding` never touches the Playback Clock. -/
theorem startDecoding_position (s : MediaState) :
    (Media.startDecoding s).1.position = s.position := by
  rcases h : s.readerAt with _ | t
  · simp [Media.startDecoding, h]
  · cases hd : s.decoderPresent <;> rcases hp : s.producerGen with _ | g <;>
      simp [Media.startDecoding, h, hd, hp]

/-- `stream.play()` never touches the Playback Clock. -/
theorem streamPlay_position (s : MediaState) :
    (Media.streamPlay s).1.position = s.position := by
  rcases h : s.stream with _ | st <;> simp [Media.streamPlay, h]

/-- `pause` never touches the Playback Clock. -/
theorem pause_position (s : MediaState) :
    (Media.pause s).1.position = s.position := by
  rcases h : s.stream with _ | st <;> simp [Media.pause, h]

/-- `play` never touches the Playback Clock, on any of its paths. -/
theorem play_position (s : MediaState) : (Media.play s).1.position = s.position := by
  simp only [Media.play]
  split
  · split
    next s2 e2 heq =>
      split at heq
      · have h := startDecoding_position { s with isPlaying := true }
        rw [heq] at h
        simpa using h
      · simp at heq
    next s2 heq =>
      rw [streamPlay_position]
      split at heq
      · have h := startDecoding_position { s with isPlaying := true }
        rw [heq] at h
        simpa using h
      · cases heq
        rfl
  · split
    next s1 e1 heq =>
      have h := intoStream_position s
      rw [heq] at h
      simpa using h
    next s1 heq =>
      have h1 : s1.position = s.position := by
        have h := intoStream_position s
        rw [heq] at h
        simpa using h
      split
      next s3 e3 heq2 =>
        have h := startDecoding_position { s1 with isPlaying := true }
        rw [heq2] at h
        simp at h
        rw [h, h1]
      next s3 heq2 =>
        rw [streamPlay_position]
        have h := startDecoding_position { s1 with isPlaying := true }
        rw [heq2] at h
        simp at h
        rw [h, h1]

/-- On a state with an output stream, a successful `seek` ends with the
truncated arithmetic target (mod 2^32) in the Playback Clock. -/
theorem seek_position (s : MediaState) (st : StreamSt) (t : ℚ)
    (hst : s.stream = some st) :
    (Media.seek t true s).2 = none ∧
    (Media.seek t true s).1.position
      = Media.seekTarget t s.sampleRate s.channels % U32MOD := by
  have hp : Media.pause s
      = ({ s with isPlaying := false, stream := some ⟨st.consumerGen, false⟩ }, none) := by
    simp [Media.pause, hst]
  constructor <;>
    simp [Media.seek, hp, Media.play, Media.intoStream, Media.startDecoding,
      Media.streamPlay]

/-- C1 counterexample: seeking the loaded 44100 Hz stereo track to
`t = 23/220500` s (so `t × rate = 4.6`) stores `⌊4.6⌋ × 2 = 8`, while
the claimed value is `round(4.6) × 2 = 10` — the `as u64` cast
truncates instead of rounding. -/
theorem C1_seek_round_counterexample :
    (Media.seek (23 / 220500) true exPlaying).1.position
      ≠ specSeekTarget (23 / 220500) exPlaying.sampleRate exPlaying.channels := by
  have h := (seek_position exPlaying ⟨0, true⟩ (23 / 220500) rfl).2
  rw [h]
  have hfloor : ⌊(23 / 220500 : ℚ) * ((exPlaying.sampleRate : Nat) : ℚ)⌋ = 4 := by
    norm_num [exPlaying, exLoaded, Media.load, Media.play, Media.intoStream,
      Media.startDecoding, Media.streamPlay]
  have hround : round ((23 / 220500 : ℚ) * ((exPlaying.sampleRate : Nat) : ℚ)) = 5 := by
    rw [round_eq]
    norm_num [exPlaying, exLoaded, Media.load, Media.play, Media.intoStream,
      Media.startDecoding, Media.streamPlay]
  rw [Media.seekTarget, specSeekTarget, hfloor, hround]
  decide

/-- C1 amended: for every seek time `t ≥ 0` issued on a state that has
an output stream, `seek(t)` succeeds and leaves the Playback Clock at
`⌊t × sample_rate⌋ × channel_count` reduced mod 2^32 (the value is
truncated by the `as u64` cast, not rounded, and stored into a 32-bit
atomic), before any further samples are consumed. -/
theorem C1_seek_clock_amended (s : MediaState) (st : StreamSt) (t : ℚ)
    (hst : s.stream = some st) (ht : 0 ≤ t) :
    (Media.seek t true s).2 = none ∧
    (Media.seek t true s).1.position
      = (Int.toNat ⌊t * (s.sampleRate : ℚ)⌋ * s.channels) % U32MOD := by
  simpa [Media.seekTarget] using seek_position s st t hst

/-- C1 witness: seeking the example track to 1 s. -/
theorem C1_seek_clock_amended_witness :
    (Media.seek 1 true exPlaying).2 = none ∧
    (Media.seek 1 true exPlaying).1.position
      = (Int.toNat ⌊(1 : ℚ) * (exPlaying.sampleRate : ℚ)⌋ * exPlaying.channels) % U32MOD :=
  C1_seek_clock_amended exPlaying ⟨0, true⟩ 1 rfl (by decide)

/-- C2: after `load(); play(); reset(); play()` the resumed output
stream still owns the consumer of ring-buffer generation 0 (built at the
first `play`), while the new decode worker pushes into the fresh
generation 1 — `reset` replaces `producer`/`consumer` but never drops
`self.stream`, so the audible stream does not consume the fresh queue
and the original sample stream is not reproduced. -/
theorem C2_reset_stale_stream :
    (Media.reset (Media.play exLoaded).1).2 = none ∧
    (Media.play (Media.reset (Media.play exLoaded).1).1).2 = none ∧
    (Media.play (Media.reset (Media.play exLoaded).1).1).1.stream = some ⟨0, true⟩ ∧
    (Media.play (Media.reset (Media.play exLoaded).1).1).1.worker = some ⟨1, false⟩ := by
  decide

/-- C5 counterexample: a seek whose underlying `reader.seek` fails
returns the typed `SeekError`, but the transport has not remained in its
previous state — the playing flag was already cleared by the initial
`pause`. -/
theorem C5_failed_seek_counterexample :
    (Media.seek 1 false exPlaying).2 = some .seekError ∧
    (Media.seek 1 false exPlaying).1.isPlaying ≠ exPlaying.isPlaying := by
  constructor
  · rfl
  · decide

/-- C5 amended: when the underlying source cannot honor the requested
time, `seek` surfaces the typed `SeekError`, and the Playback Clock,
ring buffers, peaks, and track parameters are untouched — but the
transport is not in its previous state: it has been paused (playing flag
cleared, stream paused), `is_done` cleared, the decode worker joined and
its handle dropped, and the reader/decoder replaced by fresh instances
at time 0. -/
theorem C5_failed_seek_amended (s : MediaState) (st : StreamSt) (t : ℚ)
    (hst : s.stream = some st) :
    Media.seek t false s
      = ({ s with isPlaying := false, stream := some ⟨st.consumerGen, false⟩,
                  isDone := false, worker := none,
                  readerAt := some 0, decoderPresent := true }, some .seekError) := by
  have hp : Media.pause s
      = ({ s with isPlaying := false, stream := some ⟨st.consumerGen, false⟩ }, none) := by
    simp [Media.pause, hst]
  simp [Media.seek, hp]

/-- C5 witness: the failed-seek characterization at the example playing
state. -/
theorem C5_failed_seek_amended_witness :
    Media.seek 1 false exPlaying
      = ({ exPlaying with isPlaying := false, stream := some ⟨0, false⟩,
                          isDone := false, worker := none,
                          readerAt := some 0, decoderPresent := true },
         some .seekError) :=
  C5_failed_seek_amended exPlaying ⟨0, true⟩ 1 rfl

/-- C6: after `pause()` the decode thread observes the cleared flag and
exits, yet its `JoinHandle` stays in `decoding_thread`; the subsequent
`play()` succeeds but — because it only checks `decoding_thread.is_none()`
— does not restart the worker, leaving the exited thread in place, so no
decoding resumes beyond what was already buffered. -/
theorem C6_resume_dead_worker :
    exPausedExited.worker = some ⟨0, true⟩ ∧
    (Media.play exPausedExited).2 = none ∧
    (Media.play exPausedExited).1.worker = some ⟨0, true⟩ ∧
    (Media.play exPausedExited).1.isPlaying = true := by
  decide

/-- C7 counterexample: with the 32-bit Playback Clock at `2^32 - 1` and
one queued sample, a single output-callback invocation wraps the clock
to 0 — the callback's `fetch_add` is not non-decreasing at the u32
boundary. -/
theorem C7_clock_wrap_counterexample :
    (Media.callbackStep exWrap 1).position < exWrap.position := by
  decide

/-- C7 amended: the Playback Clock is a `Nat`-valued (non-negative)
counter; the output callback adds exactly the consumed count and is
non-decreasing whenever the 32-bit addition does not wrap, and no other
playback-path operation (`workerPush`, `workerExit`, `pause`, `play`)
changes the clock — only `seek`/`reset` store new values. -/
theorem C7_clock_monotone_amended :
    (∀ (s : MediaState) (n : Nat) (st : StreamSt), s.stream = some st →
        s.position + min (s.bufs.getD st.consumerGen []).length n < U32MOD →
        s.position ≤ (Media.callbackStep s n).position) ∧
    (∀ (s : MediaState) (v : ℚ), (Media.workerPush s v).position = s.position) ∧
    (∀ s : MediaState, (Media.workerExit s).position = s.position) ∧
    (∀ s : MediaState, (Media.pause s).1.position = s.position) ∧
    (∀ s : MediaState, (Media.play s).1.position = s.position) := by
  refine ⟨?_, ?_, ?_, pause_position, play_position⟩
  · intro s n st hst hlt
    simp only [Media.callbackStep, hst]
    split
    · simp only [fillLoop_spec]
      rw [Nat.mod_eq_of_lt hlt]
      exact Nat.le_add_right _ _
    · exact Nat.le_refl _
  · intro s v
    rw [Media.workerPush]
    rcases s.worker with _ | w
    · rfl
    · simp only
      split <;> rfl
  · intro s
    rw [Media.workerExit]
    split
    · rfl
    · rcases s.worker with _ | w <;> rfl

/-- C7 witness: the callback monotonicity applied to the freshly played
example state (empty queue, clock 0). -/
theorem C7_clock_monotone_amended_witness :
    exPlaying.position ≤ (Media.callbackStep exPlaying 4).position :=
  C7_clock_monotone_amended.1 exPlaying 4 ⟨0, true⟩ rfl (by decide)

/-- C8: `pause` on a state with a stream changes exactly the playing
flag and the stream's run state (clock, ring buffers, peaks, reader,
decoder, producer, consumer, worker and track parameters untouched), and
a subsequent `play` resumes with the exact Playback Clock value held at
pause time. -/
theorem C8_pause_frame_effect (s : MediaState) (st : StreamSt)
    (hst : s.stream = some st) :
    Media.pause s
      = ({ s with isPlaying := false, stream := some ⟨st.consumerGen, false⟩ }, none) ∧
    (Media.play (Media.pause s).1).1.position = s.position := by
  constructor
  · simp [Media.pause, hst]
  · rw [play_position, pause_position]

/-- C8 witness: the pause frame effect at the example playing state. -/
theorem C8_pause_frame_effect_witness :
    Media.pause exPlaying
      = ({ exPlaying with isPlaying := false, stream := some ⟨0, false⟩ }, none) ∧
    (Media.play (Media.pause exPlaying).1).1.position = exPlaying.position :=
  C8_pause_frame_effect exPlaying ⟨0, true⟩ rfl

end Oscli

